import Mathlib

/-!
# runv `create`: sandbox selection, resource sizing and the namespace locator

A shallow embedding of `cli/create.go` (`cmdCreateContainer`, `getContainerCPUMemory`,
`checkConsole`, `findSharedContainer`).

Conventions of the embedding.

* Go `int` is the 64-bit signed integer of the platforms runv builds for; `int64`, `uint64`
  and `int` values are `Int`/`Nat` with explicit wrap-around (`% 2^64`) at every arithmetic
  operation and conversion.
* Pointers (`*T`) are `Option T`; dereferencing `nil` is a panic, modelled as a result of its own.
* Everything the code asks of its surroundings (spec loading, the effective uid, the root
  directory, state files, the hypervisor) is a field of `Env`/`Root`; a call of
  `cmdCreateContainer` is a function of that environment, returning the ordered list of external
  operations it performed together with its return value.
-/

namespace Runv

/-! ## Data model (`specs-go`, `State`) -/

/-- The part of `specs.LinuxCPU` read by the code: `Quota *int64`, `Period *uint64`. -/
structure LinuxCPU where
  Quota : Option Int
  Period : Option Nat

/-- The part of `specs.LinuxMemory` read by the code: `Limit`. The runtime-spec declared it
`*uint64` up to rc5 and `*int64` afterwards; the value is kept as an `Int`, which covers both. -/
structure LinuxMemory where
  Limit : Option Int

/-- The part of `specs.LinuxResources` read by the code. -/
structure LinuxResources where
  CPU : Option LinuxCPU
  Memory : Option LinuxMemory

/-- A `specs.LinuxNamespace`: field `Type` (here `Typ`) and `Path`. -/
structure LinuxNamespace where
  Typ : String
  Path : String

/-- The part of `specs.Linux` read by the code. -/
structure Linux where
  Namespaces : List LinuxNamespace
  Resources : Option LinuxResources

/-- The part of `specs.Process` read by the code. -/
structure Process where
  Terminal : Bool

/-- The part of `specs.Spec` read by the code. `Annotations` is a Go map, kept as an
association list read with `List.lookup`. -/
structure Spec where
  Process : Option Process
  Linux : Option Linux
  Annotations : List (String × String)

/-- The part of the persisted `State` read by the code: `Pid int`. -/
structure State where
  Pid : Int

/-! ## Machine integers -/

/-- Number of values of a 64-bit word. -/
def word64 : Nat := 2 ^ 64

/-- Go conversion `uint64(x)` of a signed 64-bit value. -/
def toUint64 (x : Int) : Nat := (x % (word64 : Int)).toNat

/-- Go conversion `int(x)` of an unsigned 64-bit value (two's complement reinterpretation). -/
def toInt64 (x : Nat) : Int :=
  if x % word64 < 2 ^ 63 then ((x % word64 : Nat) : Int) else ((x % word64 : Nat) : Int) - 2 ^ 64

/-- Go conversion `int(x)` of a 64-bit value held as an integer (signed or unsigned). -/
def intOf (x : Int) : Int := toInt64 (toUint64 x)

/-- Addition of `uint64` values. -/
def addU64 (a b : Nat) : Nat := (a + b) % word64

/-- Subtraction of `uint64` values. -/
def subU64 (a b : Nat) : Nat := (a + word64 - b % word64) % word64

/-! ## `getContainerCPUMemory` -/

/-- The assignment to `cpu` inside `if spec.Linux != nil && spec.Linux.Resources != nil`:
`0` unless CPU, Period and Quota are all set and positive, then
`int((uint64(quota) + period - 1) / period)`. -/
def cpuFromResources (resource : LinuxResources) : Int :=
  match resource.CPU with
  | none => 0
  | some c =>
    match c.Period, c.Quota with
    | some period, some quota =>
      if period > 0 ∧ quota > 0 then
        toInt64 (subU64 (addU64 (toUint64 quota) period) 1 / period)
      else 0
    | _, _ => 0

/-- The assignment to `mem` inside the same block: `int(*resource.Memory.Limit >> 20)`
when Memory and Limit are set, else `0`. -/
def memFromResources (resource : LinuxResources) : Int :=
  match resource.Memory with
  | none => 0
  | some m =>
    match m.Limit with
    | none => 0
    | some limit => intOf (limit >>> (20 : Nat))

/-- Embedding of `getContainerCPUMemory`; `default_cpus` and `default_memory` are the values
of `context.GlobalInt`. -/
def getContainerCPUMemory (default_cpus default_memory : Int) (spec : Spec) : Int × Int :=
  let cpu0 : Int :=
    match spec.Linux with
    | none => 0
    | some l =>
      match l.Resources with
      | none => 0
      | some r => cpuFromResources r
  let mem0 : Int :=
    match spec.Linux with
    | none => 0
    | some l =>
      match l.Resources with
      | none => 0
      | some r => memFromResources r
  let cpu := if cpu0 ≤ 0 then default_cpus else cpu0
  let mem := if mem0 ≤ 0 then default_memory else mem0
  (cpu, mem)

/-- The CPU quota a spec configures, if any (a reading of the specification, not of the code). -/
def Spec.quota (spec : Spec) : Option Int :=
  spec.Linux.bind fun l => l.Resources.bind fun r => r.CPU.bind fun c => c.Quota

/-- The CPU period a spec configures, if any. -/
def Spec.period (spec : Spec) : Option Nat :=
  spec.Linux.bind fun l => l.Resources.bind fun r => r.CPU.bind fun c => c.Period

/-- The memory limit a spec configures, if any. -/
def Spec.memLimit (spec : Spec) : Option Int :=
  spec.Linux.bind fun l => l.Resources.bind fun r => r.Memory.bind fun m => m.Limit

/-- A spec with the given CPU quota and period and nothing else. -/
def specWithCPU (q : Int) (p : Nat) : Spec :=
  { Process := none
    Linux := some { Namespaces := [], Resources := some { CPU := some { Quota := some q, Period := some p }, Memory := none } }
    Annotations := [] }

/-- A spec with the given memory limit and nothing else. -/
def specWithMem (l : Int) : Spec :=
  { Process := none
    Linux := some { Namespaces := [], Resources := some { CPU := none, Memory := some { Limit := some l } } }
    Annotations := [] }

/-! ## `checkConsole` -/

/-- Errors returned by the functions of `create.go`, one constructor per `fmt.Errorf` site;
`external` is an error of a callee returned as is. -/
inductive Error where
  /-- Message "load config failed: %v". -/
  | loadConfigFailed (cause : String)
  /-- Message "it is not linux container config". -/
  | notLinuxConfig
  /-- Message "runv should be run as root". -/
  | notRoot
  /-- Message "no container id provided". -/
  | noContainerId
  /-- Message "container %q exists". -/
  | containerExists (container : String)
  /-- Message "only one of --console & --console-socket can be specified". -/
  | bothConsoles
  /-- Message "--console[-socket] should be used on detached mode". -/
  | consoleNotDetached
  /-- Message "--console[-socket] should be used on tty mode". -/
  | consoleNotTty
  /-- Message "Runv doesn't support containers with shared mount namespace, use runv exec instead". -/
  | sharedMountNamespace
  /-- Message "failed to find shared container: %v". -/
  | failedToFindShared (cause : Error)
  /-- Message "malformed ns path: %s". -/
  | malformedNsPath (nsPath : String)
  /-- Message "can't find container with shim pid %s". -/
  | cantFindContainer (pid : String)
  /-- Message "failed to create container: %v". -/
  | failedToCreate (cause : String)
  /-- An error of a callee (`filepath.Abs`, `ioutil.ReadDir`, `loadStateFile`, `getSandbox`). -/
  | external (msg : String)
  deriving DecidableEq

/-- How a call of a function returning `error` ends: `nil`, a non-nil error, or a panic. -/
inductive Ret where
  | nil
  | err (e : Error)
  | panic
  deriving DecidableEq

/-- Embedding of `checkConsole`; `console` and `consoleSocket` are `context.String("console")`
and `context.String("console-socket")`. `p.Terminal` is evaluated only when the first two tests
did not return and one of the two paths is set (`&&` short-circuits). -/
def checkConsole (console consoleSocket : String) (p : Option Process) (attach : Bool) : Ret :=
  if console ≠ "" ∧ consoleSocket ≠ "" then .err .bothConsoles
  else if (console ≠ "" ∨ consoleSocket ≠ "") ∧ attach = true then .err .consoleNotDetached
  else if console ≠ "" ∨ consoleSocket ≠ "" then
    match p with
    | none => .panic
    | some proc => if proc.Terminal = false then .err .consoleNotTty else .nil
  else .nil

/-! ## `findSharedContainer` -/

/-- The literal `/proc/` that opens the pattern. -/
def procLit : List Char := ['/', 'p', 'r', 'o', 'c', '/']

/-- The literal `/ns` of the pattern. -/
def nsLit : List Char := ['/', 'n', 's']

/-- Remove a literal from the front of the input, when the input starts with it. -/
def dropLit : List Char → List Char → Option (List Char)
  | [], s => some s
  | _ :: _, [] => none
  | a :: lit, c :: s => if a = c then dropLit lit s else none

/-- A match of the pattern `/proc/(\d+)/ns/*` that starts at the first character of the input:
the matched text and the text of group 1. `\d` is an ASCII digit. `\d+` is greedy and is
followed in the pattern by `/`, which is no digit, so a match takes the whole run of digits;
`/*` is greedy and takes every `/` that follows `/ns`. -/
def matchHere (s : List Char) : Option (List Char × List Char) :=
  match dropLit procLit s with
  | none => none
  | some r =>
    if r.takeWhile Char.isDigit = [] then none
    else
      match dropLit nsLit (r.dropWhile Char.isDigit) with
      | none => none
      | some t =>
        some (procLit ++ r.takeWhile Char.isDigit ++ nsLit ++ t.takeWhile (fun c => c = '/'),
          r.takeWhile Char.isDigit)

/-- The leftmost match of the pattern in the input. -/
def findSubmatch : List Char → Option (List Char × List Char)
  | [] => none
  | c :: cs =>
    match matchHere (c :: cs) with
    | some m => some m
    | none => findSubmatch cs

/-- Embedding of `regexp.MustCompile("/proc/(\\d+)/ns/*").FindStringSubmatch`: the empty slice
when there is no match, else the matched text followed by group 1. -/
def FindStringSubmatch (s : String) : List String :=
  match findSubmatch s.data with
  | none => []
  | some m => [String.mk m.1, String.mk m.2]

/-- Embedding of `fmt.Sprintf("%d", n)`. -/
def sprintfD : Int → String
  | Int.ofNat m => Nat.repr m
  | Int.negSucc m => "-" ++ Nat.repr (m + 1)

/-- What the code can observe of the directory `root`: the results of `filepath.Abs(root)`,
of `ioutil.ReadDir` on it (the entries' names) and of `loadStateFile` for a name under it. -/
structure Root where
  abs : Except String String
  readDir : Except String (List String)
  loadStateFile : String → Except String State

/-- External operations performed by a call, in order. -/
inductive Event where
  | readDir
  | loadStateFile (name : String)
  | getSandbox (name : String)
  | setupFactory
  | createAndLockSandBox (cpu mem : Int)
  | createContainer
  | putSandbox
  deriving DecidableEq

/-- The loop `for _, item := range list` of `findSharedContainer`: the first entry whose state
loads and prints to `pid`, else the can't-find error. -/
def scanStates (load : String → Except String State) (pid : String) :
    List String → List Event × Except Error String
  | [] => ([], .error (.cantFindContainer pid))
  | item :: rest =>
    match load item with
    | .ok state =>
      if sprintfD state.Pid = pid then ([.loadStateFile item], .ok item)
      else (.loadStateFile item :: (scanStates load pid rest).1, (scanStates load pid rest).2)
    | .error _ => (.loadStateFile item :: (scanStates load pid rest).1, (scanStates load pid rest).2)

/-- Embedding of `findSharedContainer`. -/
def findSharedContainer (root : Root) (nsPath : String) : List Event × Except Error String :=
  match root.abs with
  | .error e => ([], .error (.external e))
  | .ok _ =>
    match root.readDir with
    | .error e => ([.readDir], .error (.external e))
    | .ok list =>
      if '/' ∈ nsPath.data then
        match FindStringSubmatch nsPath with
        | [_, pid] => (.readDir :: (scanStates root.loadStateFile pid list).1,
            (scanStates root.loadStateFile pid list).2)
        | _ => ([.readDir], .error (.malformedNsPath nsPath))
      else ([.readDir], .ok nsPath)

/-! ## `cmdCreateContainer` -/

/-- Everything a call of `cmdCreateContainer` asks of its surroundings. -/
structure Env where
  /-- Result of `loadSpec(ocffile)`. -/
  loadSpec : Except String Spec
  /-- Result of `os.Geteuid()`. -/
  euid : Int
  /-- Value of `context.Args().First()`. -/
  container : String
  /-- Whether `os.Stat(filepath.Join(root, container))` returned no error. -/
  containerExists : Bool
  /-- Value of `context.String("console")`. -/
  console : String
  /-- Value of `context.String("console-socket")`. -/
  consoleSocket : String
  /-- The directory `context.GlobalString("root")`. -/
  root : Root
  /-- Result of `getSandbox` for the sandbox directory of a container. -/
  getSandbox : String → Except String Unit
  /-- Result of `setupFactory(context, spec)`. -/
  setupFactory : Except String Unit
  /-- Result of `createAndLockSandBox(f, spec, cpu, mem)`. -/
  createAndLockSandBox : Int → Int → Except String Unit
  /-- Result of `createContainer`, given `options.withContainer`. -/
  createContainer : Option State → Except String Unit
  /-- Value of `context.GlobalInt("default_cpus")`. -/
  default_cpus : Int
  /-- Value of `context.GlobalInt("default_memory")`. -/
  default_memory : Int

/-- The loop `for _, ns := range spec.Linux.Namespaces`; the second argument is the current
value of `sharedContainer`. -/
def nsLoop (root : Root) : List LinuxNamespace → String → List Event × Except Error String
  | [], sharedContainer => ([], .ok sharedContainer)
  | ns :: rest, sharedContainer =>
    if ns.Path ≠ "" then
      if ns.Typ = "mount" then ([], .error .sharedMountNamespace)
      else
        match (findSharedContainer root ns.Path).2 with
        | .error e => ((findSharedContainer root ns.Path).1, .error (.failedToFindShared e))
        | .ok c =>
          ((findSharedContainer root ns.Path).1 ++ (nsLoop root rest c).1, (nsLoop root rest c).2)
    else nsLoop root rest sharedContainer

/-- The sandbox selection of `cmdCreateContainer` (source lines 92 to 108): the value of
`sharedContainer` it ends with, or the error it returns. A key missing from the Go map reads
as the empty string. -/
def selectShared (root : Root) (spec : Spec) (linux : Linux) : List Event × Except Error String :=
  match spec.Annotations.lookup "ocid/container_type" with
  | some containerType =>
    if containerType = "container" then
      ([], .ok ((spec.Annotations.lookup "ocid/sandbox_name").getD ""))
    else ([], .ok "")
  | none => nsLoop root linux.Namespaces ""

/-- The end of `cmdCreateContainer` (source lines 133 to 141), once a sandbox is held:
`createContainer`, then the deferred `putSandbox`. -/
def createInSandbox (env : Env) (scState : Option State) : List Event × Ret :=
  match env.createContainer scState with
  | .error e => ([.createContainer, .putSandbox], .err (.failedToCreate e))
  | .ok _ => ([.createContainer, .putSandbox], .nil)

/-- The sandbox acquisition of `cmdCreateContainer` (source lines 110 to 132) followed by
`createInSandbox`. -/
def createWith (env : Env) (spec : Spec) (sharedContainer : String) : List Event × Ret :=
  if sharedContainer ≠ "" then
    match env.root.loadStateFile sharedContainer with
    | .error e => ([.loadStateFile sharedContainer], .err (.external e))
    | .ok scState =>
      match env.getSandbox sharedContainer with
      | .error e => ([.loadStateFile sharedContainer, .getSandbox sharedContainer], .err (.external e))
      | .ok _ =>
        (.loadStateFile sharedContainer :: .getSandbox sharedContainer ::
          (createInSandbox env (some scState)).1, (createInSandbox env (some scState)).2)
  else
    match env.setupFactory with
    | .error _ => ([.setupFactory], .nil)
    | .ok _ =>
      match env.createAndLockSandBox (getContainerCPUMemory env.default_cpus env.default_memory spec).1
          (getContainerCPUMemory env.default_cpus env.default_memory spec).2 with
      | .error _ =>
        ([.setupFactory, .createAndLockSandBox
            (getContainerCPUMemory env.default_cpus env.default_memory spec).1
            (getContainerCPUMemory env.default_cpus env.default_memory spec).2], .nil)
      | .ok _ =>
        (.setupFactory :: .createAndLockSandBox
            (getContainerCPUMemory env.default_cpus env.default_memory spec).1
            (getContainerCPUMemory env.default_cpus env.default_memory spec).2 ::
          (createInSandbox env none).1, (createInSandbox env none).2)

/-- Embedding of `cmdCreateContainer`: the external operations performed and the return
value. -/
def cmdCreateContainer (env : Env) (attach : Bool) : List Event × Ret :=
  match env.loadSpec with
  | .error e => ([], .err (.loadConfigFailed e))
  | .ok spec =>
    match spec.Linux with
    | none => ([], .err .notLinuxConfig)
    | some linux =>
      if env.euid ≠ 0 then ([], .err .notRoot)
      else if env.container = "" then ([], .err .noContainerId)
      else if env.containerExists = true then ([], .err (.containerExists env.container))
      else
        match checkConsole env.console env.consoleSocket spec.Process attach with
        | .panic => ([], .panic)
        | .err e => ([], .err e)
        | .nil =>
          match (selectShared env.root spec linux).2 with
          | .error e => ((selectShared env.root spec linux).1, .err e)
          | .ok sharedContainer =>
            ((selectShared env.root spec linux).1 ++ (createWith env spec sharedContainer).1,
              (createWith env spec sharedContainer).2)

/-- A call reaches the sandbox selection with `spec` and its Linux section: the spec loaded,
it has a Linux section, the caller is root, the container id is non-empty and unused, and the
console flags are consistent. -/
def ReachesSelection (env : Env) (attach : Bool) (spec : Spec) (linux : Linux) : Prop :=
  env.loadSpec = .ok spec ∧ spec.Linux = some linux ∧ env.euid = 0 ∧ env.container ≠ "" ∧
    env.containerExists = false ∧
    checkConsole env.console env.consoleSocket spec.Process attach = .nil

/-- The events that load or create a sandbox, or create a container in one. -/
def Event.isSandboxOp : Event → Bool
  | .getSandbox _ => true
  | .setupFactory => true
  | .createAndLockSandBox _ _ => true
  | .createContainer => true
  | _ => false

/-! ## Specification-side predicates for the locator -/

/-- The path `/proc/<p>/ns/<s>`, with `p` in decimal. -/
def procPath (p : Nat) (s : String) : String := "/proc/" ++ Nat.repr p ++ "/ns/" ++ s

/-- The entry `name` of the root has a state record that loads and whose `Pid` is `p`. -/
def HasPid (load : String → Except String State) (p : Nat) (name : String) : Prop :=
  ∃ st, load name = .ok st ∧ st.Pid = (p : Int)

/-- The path contains an occurrence of the shape `/proc/<one or more decimal digits>/ns`. -/
def HasProcShape (nsPath : String) : Prop :=
  ∃ pre ds post, ds ≠ [] ∧ (∀ c ∈ ds, c.isDigit = true) ∧
    nsPath.data = pre ++ procLit ++ ds ++ nsLit ++ post

/-- The number a list of decimal digits denotes, most significant digit first. -/
def digitsVal : List Char → Nat
  | [] => 0
  | c :: cs => (c.toNat - 48) * 10 ^ cs.length + digitsVal cs

/-- A listable root with entries `a`, `b`, `c`: the state of `a` does not load, the state of
`b` has pid 4821 and the state of `c` has pid 7. -/
def rootABC : Root :=
  { abs := .ok "/run/runv"
    readDir := .ok ["a", "b", "c"]
    loadStateFile := fun n =>
      if n = "b" then .ok { Pid := 4821 } else if n = "c" then .ok { Pid := 7 }
      else .error "open state.json: no such file or directory" }

/-- A root whose directory cannot be listed. -/
def rootMissing : Root :=
  { abs := .ok "/run/runv"
    readDir := .error "open /run/runv: no such file or directory"
    loadStateFile := fun _ => .error "open state.json: no such file or directory" }

/-! ## Concrete create calls -/

/-- An environment in which every external operation succeeds, for the given spec and root;
the defaults are 4 CPUs and 128 MiB. -/
def envOk (spec : Spec) (root : Root) : Env :=
  { loadSpec := .ok spec
    euid := 0
    container := "c1"
    containerExists := false
    console := ""
    consoleSocket := ""
    root := root
    getSandbox := fun _ => .ok ()
    setupFactory := .ok ()
    createAndLockSandBox := fun _ _ => .ok ()
    createContainer := fun _ => .ok ()
    default_cpus := 4
    default_memory := 128 }

/-- A Linux section with the given namespaces and no resources. -/
def linuxWith (nss : List LinuxNamespace) : Linux := { Namespaces := nss, Resources := none }

/-- A spec with the given namespaces and annotations, and a process without terminal. -/
def specWith (nss : List LinuxNamespace) (ann : List (String × String)) : Spec :=
  { Process := some { Terminal := false }, Linux := some (linuxWith nss), Annotations := ann }

/-- A create call of a plain container whose `setupFactory` fails. -/
def envFactoryFails : Env :=
  { envOk (specWith [] []) rootABC with setupFactory := .error "kernel image not found" }

/-- A create call of a plain container whose `createAndLockSandBox` fails. -/
def envSandboxFails : Env :=
  { envOk (specWith [] []) rootABC with
    createAndLockSandBox := fun _ _ => .error "failed to launch qemu" }

/-- A mount namespace with a path. -/
def nsMount : LinuxNamespace := { Typ := "mount", Path := "/proc/4821/ns/mnt" }

/-- A pid namespace whose path names the process 4821. -/
def nsPid4821 : LinuxNamespace := { Typ := "pid", Path := "/proc/4821/ns/pid" }

/-- A network namespace whose path names the process 7. -/
def nsNet7 : LinuxNamespace := { Typ := "network", Path := "/proc/7/ns/net" }

/-- A pid namespace whose path names the process 99, which no record has. -/
def nsPid99 : LinuxNamespace := { Typ := "pid", Path := "/proc/99/ns/pid" }

/-! ## Resource sizing: specification side -/

/-- The exact quotient `q / p` rounded up to an integer. -/
def ceilQuot (q : Int) (p : Nat) : Int := ⌈(q : ℚ) / (p : ℚ)⌉

/-- A spec without a Linux section. -/
def specNoLinux : Spec := { Process := none, Linux := none, Annotations := [] }

theorem toUint64_of_range (x : Int) (h0 : 0 ≤ x) (h1 : x < 2 ^ 64) : toUint64 x = x.toNat := by
  unfold toUint64 word64
  congr 1
  exact Int.emod_eq_of_lt h0 (by norm_num at h1 ⊢; exact h1)

theorem toInt64_of_lt (x : Nat) (h : x < 2 ^ 63) : toInt64 x = (x : Int) := by
  unfold toInt64 word64
  have hx : x % 2 ^ 64 = x := Nat.mod_eq_of_lt (by omega)
  rw [hx, if_pos h]

theorem intOf_of_range (x : Int) (h0 : 0 ≤ x) (h1 : x < 2 ^ 63) : intOf x = x := by
  unfold intOf
  rw [toUint64_of_range x h0 (by omega), toInt64_of_lt _ (by omega)]
  omega

theorem spec_quota_period (spec : Spec) (q : Int) (p : Nat)
    (hq : spec.quota = some q) (hp : spec.period = some p) :
    ∃ l r c, spec.Linux = some l ∧ l.Resources = some r ∧ r.CPU = some c ∧
      c.Quota = some q ∧ c.Period = some p := by
  unfold Spec.quota at hq
  unfold Spec.period at hp
  cases hl : spec.Linux with
  | none => simp [hl] at hq
  | some l =>
    cases hr : l.Resources with
    | none => simp [hl, hr] at hq
    | some r =>
      cases hc : r.CPU with
      | none => simp [hl, hr, hc] at hq
      | some c =>
        simp [hl, hr, hc] at hq hp
        exact ⟨l, r, c, rfl, hr, hc, hq, hp⟩

theorem spec_memLimit (spec : Spec) (L : Int) (h : spec.memLimit = some L) :
    ∃ l r m, spec.Linux = some l ∧ l.Resources = some r ∧ r.Memory = some m ∧
      m.Limit = some L := by
  unfold Spec.memLimit at h
  cases hl : spec.Linux with
  | none => simp [hl] at h
  | some l =>
    cases hr : l.Resources with
    | none => simp [hl, hr] at h
    | some r =>
      cases hm : r.Memory with
      | none => simp [hl, hr, hm] at h
      | some m =>
        simp [hl, hr, hm] at h
        exact ⟨l, r, m, rfl, hr, hm, h⟩

/-- The `cpu` result in terms of the value assigned inside the resources block. -/
theorem getContainerCPUMemory_fst (dc dm : Int) (spec : Spec) (l : Linux) (r : LinuxResources)
    (hl : spec.Linux = some l) (hr : l.Resources = some r) :
    (getContainerCPUMemory dc dm spec).1 =
      if cpuFromResources r ≤ 0 then dc else cpuFromResources r := by
  simp [getContainerCPUMemory, hl, hr]

/-- The `mem` result in terms of the value assigned inside the resources block. -/
theorem getContainerCPUMemory_snd (dc dm : Int) (spec : Spec) (l : Linux) (r : LinuxResources)
    (hl : spec.Linux = some l) (hr : l.Resources = some r) :
    (getContainerCPUMemory dc dm spec).2 =
      if memFromResources r ≤ 0 then dm else memFromResources r := by
  simp [getContainerCPUMemory, hl, hr]

theorem ceilQuot_eq (q : Int) (p : Nat) (hp : 0 < p) :
    ceilQuot q p = (q + p - 1) / p := by
  unfold ceilQuot
  have hpQ : (0 : ℚ) < (p : ℚ) := by exact_mod_cast hp
  have hpZ : (0 : Int) < (p : Int) := by exact_mod_cast hp
  rw [Int.ceil_eq_iff]
  set k : Int := (q + p - 1) / p with hk
  have h1 : (p : Int) * k ≤ q + p - 1 := Int.mul_ediv_self_le hpZ.ne'
  have h2 : q + p - 1 < (p : Int) * k + p := Int.lt_mul_ediv_self_add hpZ
  constructor
  · rw [lt_div_iff₀ hpQ]
    have h3 : (k - 1) * (p : Int) < q := by nlinarith
    have : (((k - 1) * (p : Int) : Int) : ℚ) < ((q : Int) : ℚ) := by exact_mod_cast h3
    push_cast at this
    linarith
  · rw [div_le_iff₀ hpQ]
    have h3 : q ≤ k * (p : Int) := by
      have : q - 1 < (p : Int) * k := by linarith
      have : q ≤ (p : Int) * k := by omega
      linarith
    have : ((q : Int) : ℚ) ≤ ((k * (p : Int) : Int) : ℚ) := by exact_mod_cast h3
    push_cast at this
    linarith

/-- Away from wrap-around, the code computes the ceiling: when `quota + period - 1` fits in
64 bits, the returned `cpu` is `ceil (quota / period)`, whatever the default is. -/
theorem getContainerCPUMemory_cpu_ceil (dc dm : Int) (spec : Spec) (q : Int) (p : Nat)
    (hq : spec.quota = some q) (hp : spec.period = some p)
    (hq0 : 0 < q) (hq1 : q < 2 ^ 63) (hp0 : 0 < p) (hfit : q + p - 1 < 2 ^ 64) :
    (getContainerCPUMemory dc dm spec).1 = ceilQuot q p := by
  obtain ⟨l, r, c, hl, hr, hc, hcq, hcp⟩ := spec_quota_period spec q p hq hp
  rw [getContainerCPUMemory_fst dc dm spec l r hl hr, ceilQuot_eq q p hp0]
  lift q to ℕ using hq0.le with n
  have hn0 : 0 < n := by exact_mod_cast hq0
  have hu : toUint64 (n : Int) = n := by
    rw [toUint64_of_range _ hq0.le (by omega)]; simp
  have hsum : subU64 (addU64 (toUint64 (n : Int)) p) 1 = n + p - 1 := by
    rw [hu]
    unfold subU64 addU64 word64
    have : n + p < 2 ^ 64 + 1 := by omega
    omega
  have hval : cpuFromResources r = toInt64 ((n + p - 1) / p) := by
    simp [cpuFromResources, hc, hcq, hcp, hp0, hn0, hsum]
  have hle : (n + p - 1) / p ≤ n := by
    have h1 : n * 1 ≤ n * p := Nat.mul_le_mul_left _ hp0
    have h2 : (n + p - 1) / p < n + 1 := by
      rw [Nat.div_lt_iff_lt_mul hp0, Nat.add_mul]
      omega
    omega
  have hge : 1 ≤ (n + p - 1) / p := by
    rw [Nat.le_div_iff_mul_le hp0]; omega
  have hcast : ((((n + p - 1) / p : Nat)) : Int) = ((n : Int) + p - 1) / p := by
    have : ((n + p - 1 : Nat) : Int) = (n : Int) + p - 1 := by omega
    rw [Int.natCast_div, this]
  rw [hval, toInt64_of_lt _ (by omega), hcast]
  have hpos : ¬ ((n : Int) + (p : Int) - 1) / p ≤ 0 := by
    rw [← hcast]; omega
  rw [if_neg hpos]

/-- C1, the code at quota 2 and period 2^64 - 1: both are configured and positive and
`ceil (2 / (2^64 - 1))` is 1, but `uint64(quota) + period - 1` wraps around to 0, the
division yields 0 and the returned `cpu` is the default (here 4). -/
theorem getContainerCPUMemory_cpu_wraps :
    (specWithCPU 2 (2 ^ 64 - 1)).quota = some 2 ∧
    (specWithCPU 2 (2 ^ 64 - 1)).period = some (2 ^ 64 - 1) ∧
    ceilQuot 2 (2 ^ 64 - 1) = 1 ∧
    (getContainerCPUMemory 4 128 (specWithCPU 2 (2 ^ 64 - 1))).1 = 4 := by
  refine ⟨rfl, rfl, ?_, by decide⟩
  rw [ceilQuot_eq 2 (2 ^ 64 - 1) (by norm_num)]
  norm_num

/-- C2 fails below one MiB: with a configured limit of 1048575 bytes (positive) the
returned `mem` is the default 128, not `floor (1048575 / 2^20) = 0`. -/
theorem mem_small_limit_gets_default :
    (specWithMem 1048575).memLimit = some 1048575 ∧
    (1048575 : Int) / 2 ^ 20 = 0 ∧
    (getContainerCPUMemory 4 128 (specWithMem 1048575)).2 = 128 := by
  refine ⟨rfl, by norm_num, by decide⟩

/-- C2 as amended: for a configured memory limit `L` (a positive 64-bit value), the returned
`mem` is `floor (L / 2^20)` whatever the default is when `L` is at least `2^20`, and it is
`default_memory` when `L` is below `2^20`. -/
theorem getContainerCPUMemory_mem (dc dm : Int) (spec : Spec) (L : Int)
    (hL : spec.memLimit = some L) (h0 : 0 < L) (h1 : L < 2 ^ 64) :
    (2 ^ 20 ≤ L → (getContainerCPUMemory dc dm spec).2 = L / 2 ^ 20) ∧
    (L < 2 ^ 20 → (getContainerCPUMemory dc dm spec).2 = dm) := by
  obtain ⟨l, r, m, hl, hr, hm, hlim⟩ := spec_memLimit spec L hL
  rw [getContainerCPUMemory_snd dc dm spec l r hl hr]
  have hshift : L >>> (20 : Nat) = L / 2 ^ 20 := by
    rw [Int.shiftRight_eq_div_pow]; norm_num
  have hval : memFromResources r = L / 2 ^ 20 := by
    simp only [memFromResources, hm, hlim, hshift]
    exact intOf_of_range _ (by omega) (by omega)
  rw [hval]
  constructor
  · intro h
    rw [if_neg (by omega)]
  · intro h
    rw [if_pos (by omega)]

/-- Witness of `getContainerCPUMemory_mem` at the limit 536870912, which gives 512. -/
theorem getContainerCPUMemory_mem_witness :
    (specWithMem 536870912).memLimit = some 536870912 ∧
    (getContainerCPUMemory 4 128 (specWithMem 536870912)).2 = 512 :=
  ⟨rfl, by
    have h := (getContainerCPUMemory_mem 4 128 (specWithMem 536870912) 536870912 rfl
      (by decide) (by decide)).1 (by decide)
    rw [h]; decide⟩

/-- C3: when the CPU quota or the CPU period is unset or not positive the returned `cpu` is
`default_cpus`, and when the memory limit is unset or 0 the returned `mem` is
`default_memory`. -/
theorem getContainerCPUMemory_defaults (dc dm : Int) (spec : Spec) :
    ((spec.quota = none ∨ spec.period = none ∨ (∃ q, spec.quota = some q ∧ q ≤ 0) ∨
        (∃ p, spec.period = some p ∧ p ≤ 0)) → (getContainerCPUMemory dc dm spec).1 = dc) ∧
    ((spec.memLimit = none ∨ spec.memLimit = some 0) →
        (getContainerCPUMemory dc dm spec).2 = dm) := by
  constructor
  · intro h
    cases hl : spec.Linux with
    | none => simp [getContainerCPUMemory, hl]
    | some l =>
      cases hr : l.Resources with
      | none => simp [getContainerCPUMemory, hl, hr]
      | some r =>
        rw [getContainerCPUMemory_fst dc dm spec l r hl hr]
        have hz : cpuFromResources r = 0 := by
          unfold cpuFromResources
          cases hc : r.CPU with
          | none => rfl
          | some c =>
            have hq : spec.quota = c.Quota := by simp [Spec.quota, hl, hr, hc]
            have hp : spec.period = c.Period := by simp [Spec.period, hl, hr, hc]
            rw [hq, hp] at h
            cases hcp : c.Period with
            | none => simp [hcp]
            | some period =>
              cases hcq : c.Quota with
              | none => simp [hcp, hcq]
              | some quota =>
                simp only [hcp, hcq] at h ⊢
                have hneg : ¬ (period > 0 ∧ quota > 0) := by
                  rintro ⟨h1, h2⟩
                  rcases h with h | h | ⟨q, h, h'⟩ | ⟨p, h, h'⟩
                  · cases h
                  · cases h
                  · cases h; omega
                  · cases h; omega
                rw [if_neg hneg]
        rw [hz]; simp
  · intro h
    cases hl : spec.Linux with
    | none => simp [getContainerCPUMemory, hl]
    | some l =>
      cases hr : l.Resources with
      | none => simp [getContainerCPUMemory, hl, hr]
      | some r =>
        rw [getContainerCPUMemory_snd dc dm spec l r hl hr]
        have hz : memFromResources r = 0 := by
          unfold memFromResources
          cases hm : r.Memory with
          | none => rfl
          | some m =>
            have hL : spec.memLimit = m.Limit := by simp [Spec.memLimit, hl, hr, hm]
            rw [hL] at h
            cases hlim : m.Limit with
            | none => simp [hlim]
            | some limit =>
              simp only [hlim] at h ⊢
              rcases h with h | h
              · cases h
              · cases h; decide
        rw [hz]; simp

/-- Witness of `getContainerCPUMemory_defaults`: a spec without a Linux section gets both
defaults. -/
theorem getContainerCPUMemory_defaults_witness :
    specNoLinux.quota = none ∧ specNoLinux.memLimit = none ∧
    getContainerCPUMemory 4 128 specNoLinux = (4, 128) :=
  ⟨rfl, rfl, Prod.ext
    ((getContainerCPUMemory_defaults 4 128 specNoLinux).1 (Or.inl rfl))
    ((getContainerCPUMemory_defaults 4 128 specNoLinux).2 (Or.inl rfl))⟩

/-- C9: `checkConsole` returns no error exactly when both paths are empty, or exactly one of
them is set, attach is false and the process requests a terminal; with both paths empty it
returns no error whatever the attach flag and the process are. -/
theorem checkConsole_nil_iff (console consoleSocket : String) (attach terminal : Bool) :
    (checkConsole console consoleSocket (some { Terminal := terminal }) attach = Ret.nil ↔
      ((console = "" ∧ consoleSocket = "") ∨
        (((console ≠ "" ∧ consoleSocket = "") ∨ (console = "" ∧ consoleSocket ≠ "")) ∧
          attach = false ∧ terminal = true))) ∧
    (console = "" → consoleSocket = "" →
      ∀ (a : Bool) (p : Option Process), checkConsole console consoleSocket p a = Ret.nil) := by
  constructor
  · unfold checkConsole
    by_cases hc : console = "" <;> by_cases hs : consoleSocket = "" <;>
      cases attach <;> cases terminal <;> simp [hc, hs]
  · intro hc hs a p
    simp [checkConsole, hc, hs]

/-- Witness of `checkConsole_nil_iff`: a console socket alone, detached, with a terminal. -/
theorem checkConsole_nil_iff_witness :
    checkConsole "" "/run/tty.sock" (some { Terminal := true }) false = Ret.nil ∧
    checkConsole "" "" none true = Ret.nil :=
  ⟨(checkConsole_nil_iff "" "/run/tty.sock" false true).1.2
      (Or.inr ⟨Or.inr ⟨rfl, by decide⟩, rfl, rfl⟩),
    (checkConsole_nil_iff "" "" false false).2 rfl rfl true none⟩

/-! ## The pattern `/proc/(\d+)/ns/*` -/

theorem dropLit_eq_some (lit s r : List Char) : dropLit lit s = some r ↔ s = lit ++ r := by
  induction lit generalizing s with
  | nil => simp [dropLit, eq_comm]
  | cons a lit ih =>
    cases s with
    | nil => simp [dropLit]
    | cons c s =>
      by_cases hac : a = c
      · subst hac; simp [dropLit, ih]
      · have hca : ¬ c = a := fun h => hac h.symm
        simp [dropLit, hac, hca]

theorem takeWhile_digits_append (ds rest : List Char) (hds : ∀ c ∈ ds, c.isDigit = true) :
    (ds ++ nsLit ++ rest).takeWhile Char.isDigit = ds ∧
    (ds ++ nsLit ++ rest).dropWhile Char.isDigit = nsLit ++ rest := by
  induction ds with
  | nil => exact ⟨rfl, rfl⟩
  | cons d ds ih =>
    have hd : d.isDigit = true := hds d (List.mem_cons_self _ _)
    have ih' := ih (fun c hc => hds c (List.mem_cons_of_mem _ hc))
    constructor
    · simp only [List.cons_append, List.takeWhile_cons, hd, if_true, ih'.1]
    · simp only [List.cons_append, List.dropWhile_cons, hd, if_true, ih'.2]

/-- An anchored match exists on every input of the shape, and group 1 is the digit run. -/
theorem matchHere_of_shape (ds post : List Char) (hne : ds ≠ [])
    (hds : ∀ c ∈ ds, c.isDigit = true) :
    ∃ w, matchHere (procLit ++ ds ++ nsLit ++ post) = some (w, ds) := by
  have h1 : dropLit procLit (procLit ++ ds ++ nsLit ++ post) = some (ds ++ nsLit ++ post) := by
    rw [dropLit_eq_some]; simp
  have h2 := takeWhile_digits_append ds post hds
  have h3 : dropLit nsLit (nsLit ++ post) = some post := by rw [dropLit_eq_some]
  refine ⟨procLit ++ ds ++ nsLit ++ post.takeWhile (fun c => c = '/'), ?_⟩
  simp only [matchHere, h1, h2.1, h2.2, h3, if_neg hne]

/-- An anchored match only exists on an input of the shape. -/
theorem shape_of_matchHere (s : List Char) (m : List Char × List Char)
    (h : matchHere s = some m) :
    ∃ post, m.2 ≠ [] ∧ (∀ c ∈ m.2, c.isDigit = true) ∧ s = procLit ++ m.2 ++ nsLit ++ post := by
  unfold matchHere at h
  cases h1 : dropLit procLit s with
  | none => simp [h1] at h
  | some r =>
    simp only [h1] at h
    by_cases hne : r.takeWhile Char.isDigit = []
    · simp [hne] at h
    · rw [if_neg hne] at h
      cases h3 : dropLit nsLit (r.dropWhile Char.isDigit) with
      | none => simp [h3] at h
      | some t =>
        simp only [h3, Option.some.injEq] at h
        subst h
        refine ⟨t, hne, ?_, ?_⟩
        · intro c hc
          exact (List.mem_takeWhile_imp hc)
        · rw [dropLit_eq_some] at h1 h3
          have := List.takeWhile_append_dropWhile Char.isDigit r
          rw [h1, List.append_assoc, List.append_assoc, ← h3, this]

theorem findSubmatch_some_shape (s : List Char) (m : List Char × List Char)
    (h : findSubmatch s = some m) :
    ∃ pre post, m.2 ≠ [] ∧ (∀ c ∈ m.2, c.isDigit = true) ∧
      s = pre ++ procLit ++ m.2 ++ nsLit ++ post := by
  induction s with
  | nil => simp [findSubmatch] at h
  | cons c cs ih =>
    unfold findSubmatch at h
    cases hm : matchHere (c :: cs) with
    | some m' =>
      simp only [hm, Option.some.injEq] at h
      subst h
      obtain ⟨post, h1, h2, h3⟩ := shape_of_matchHere _ _ hm
      exact ⟨[], post, h1, h2, by simpa using h3⟩
    | none =>
      simp only [hm] at h
      obtain ⟨pre, post, h1, h2, h3⟩ := ih h
      exact ⟨c :: pre, post, h1, h2, by simp [h3]⟩

theorem findSubmatch_of_shape (pre ds post : List Char) (hne : ds ≠ [])
    (hds : ∀ c ∈ ds, c.isDigit = true) :
    ∃ m, findSubmatch (pre ++ procLit ++ ds ++ nsLit ++ post) = some m := by
  induction pre with
  | nil =>
    obtain ⟨w, hw⟩ := matchHere_of_shape ds post hne hds
    refine ⟨(w, ds), ?_⟩
    have : ([] : List Char) ++ procLit ++ ds ++ nsLit ++ post
        = '/' :: (['p', 'r', 'o', 'c', '/'] ++ ds ++ nsLit ++ post) := by simp [procLit]
    rw [this, findSubmatch, ← this]
    simp only [List.nil_append, hw]
  | cons c pre ih =>
    obtain ⟨m, hm⟩ := ih
    simp only [List.cons_append, findSubmatch]
    cases h : matchHere (c :: (pre ++ procLit ++ ds ++ nsLit ++ post)) with
    | some m' => exact ⟨m', rfl⟩
    | none => exact ⟨m, hm⟩

/-- The pattern matches a path exactly when the path has the shape. -/
theorem FindStringSubmatch_eq_nil_iff (nsPath : String) :
    FindStringSubmatch nsPath = [] ↔ ¬ HasProcShape nsPath := by
  unfold FindStringSubmatch HasProcShape
  constructor
  · intro h ⟨pre, ds, post, hne, hds, hs⟩
    obtain ⟨m, hm⟩ := findSubmatch_of_shape pre ds post hne hds
    rw [hs, hm] at h
    simp at h
  · intro h
    cases hm : findSubmatch nsPath.data with
    | none => rfl
    | some m =>
      exfalso
      obtain ⟨pre, post, h1, h2, h3⟩ := findSubmatch_some_shape _ _ hm
      exact h ⟨pre, m.2, post, h1, h2, h3⟩

/-- On a path that starts with `/proc/<digits>/ns`, the match is found at the start and
group 1 is the digit run. -/
theorem FindStringSubmatch_proc (ds post : List Char) (hne : ds ≠ [])
    (hds : ∀ c ∈ ds, c.isDigit = true) :
    ∃ w, FindStringSubmatch (String.mk (procLit ++ ds ++ nsLit ++ post)) = [w, String.mk ds] := by
  obtain ⟨w, hw⟩ := matchHere_of_shape ds post hne hds
  refine ⟨String.mk w, ?_⟩
  have : procLit ++ ds ++ nsLit ++ post
      = '/' :: (['p', 'r', 'o', 'c', '/'] ++ ds ++ nsLit ++ post) := by simp [procLit]
  unfold FindStringSubmatch
  have hf : findSubmatch (procLit ++ ds ++ nsLit ++ post) = some (w, ds) := by
    rw [this, findSubmatch, ← this, hw]
  simp only [hf]

/-! ## Decimal printing -/

theorem digitChar_isDigit : ∀ k, k < 10 → (Nat.digitChar k).isDigit = true := by decide

theorem digitChar_val : ∀ k, k < 10 → (Nat.digitChar k).toNat - 48 = k := by decide

theorem toDigitsCore_isDigit (fuel n : Nat) (ds : List Char)
    (hds : ∀ c ∈ ds, c.isDigit = true) :
    ∀ c ∈ Nat.toDigitsCore 10 fuel n ds, c.isDigit = true := by
  induction fuel generalizing n ds with
  | zero => simpa [Nat.toDigitsCore] using hds
  | succ fuel ih =>
    have hcons : ∀ c ∈ Nat.digitChar (n % 10) :: ds, c.isDigit = true := by
      intro c hc
      rcases List.mem_cons.mp hc with rfl | hc
      · exact digitChar_isDigit _ (Nat.mod_lt _ (by decide))
      · exact hds c hc
    unfold Nat.toDigitsCore
    by_cases h : n / 10 = 0
    · simpa [h] using hcons
    · simp only [h, if_false]
      exact ih (n / 10) _ hcons

theorem toDigitsCore_ne_nil (fuel n : Nat) (ds : List Char) :
    Nat.toDigitsCore 10 (fuel + 1) n ds ≠ [] := by
  induction fuel generalizing n ds with
  | zero =>
    unfold Nat.toDigitsCore
    by_cases h : n / 10 = 0 <;> simp [h, Nat.toDigitsCore]
  | succ fuel ih =>
    unfold Nat.toDigitsCore
    by_cases h : n / 10 = 0
    · simp [h]
    · simp only [h, if_false]
      exact ih _ _

theorem digitsVal_toDigitsCore (fuel n : Nat) (ds : List Char) (hfuel : n < fuel) :
    digitsVal (Nat.toDigitsCore 10 fuel n ds) = n * 10 ^ ds.length + digitsVal ds := by
  induction fuel generalizing n ds with
  | zero => omega
  | succ fuel ih =>
    unfold Nat.toDigitsCore
    have hd : (Nat.digitChar (n % 10)).toNat - 48 = n % 10 :=
      digitChar_val _ (Nat.mod_lt _ (by decide))
    by_cases h : n / 10 = 0
    · have hn : n % 10 = n := Nat.mod_eq_of_lt (by omega)
      simp only [h, if_true, digitsVal]
      rw [hd, hn]
    · simp only [h, if_false]
      rw [ih (n / 10) _ (by omega)]
      simp only [digitsVal, hd, List.length_cons, pow_succ]
      have hn : n = 10 * (n / 10) + n % 10 := (Nat.div_add_mod n 10).symm
      conv_rhs => rw [hn]
      ring

theorem repr_data (n : Nat) : (Nat.repr n).data = Nat.toDigits 10 n := rfl

theorem repr_isDigit (n : Nat) : ∀ c ∈ (Nat.repr n).data, c.isDigit = true :=
  toDigitsCore_isDigit _ _ _ (by simp)

theorem repr_ne_nil (n : Nat) : (Nat.repr n).data ≠ [] :=
  toDigitsCore_ne_nil _ _ _

theorem repr_injective (a b : Nat) (h : Nat.repr a = Nat.repr b) : a = b := by
  have hd : Nat.toDigits 10 a = Nat.toDigits 10 b := congrArg String.data h
  have ha := digitsVal_toDigitsCore (a + 1) a [] (by omega)
  have hb := digitsVal_toDigitsCore (b + 1) b [] (by omega)
  simp only [digitsVal, List.length_nil, pow_zero, Nat.mul_one, Nat.add_zero] at ha hb
  unfold Nat.toDigits at hd
  rw [← ha, ← hb, hd]

/-- Printing a `Pid` with `%d` gives the decimal text of `p` exactly when the `Pid` is `p`. -/
theorem sprintfD_eq_repr_iff (pid : Int) (p : Nat) :
    sprintfD pid = Nat.repr p ↔ pid = (p : Int) := by
  cases pid with
  | ofNat m =>
    simp only [sprintfD]
    constructor
    · intro h; rw [repr_injective m p h]; rfl
    · intro h
      have : m = p := Int.ofNat.inj h
      rw [this]
  | negSucc m =>
    simp only [sprintfD]
    constructor
    · intro h
      exfalso
      have hd : ("-" ++ Nat.repr (m + 1)).data = (Nat.repr p).data := congrArg String.data h
      have hmem : '-' ∈ (Nat.repr p).data := by
        rw [← hd, String.data_append]
        exact List.mem_append_left _ (by decide)
      have := repr_isDigit p '-' hmem
      exact absurd this (by decide)
    · intro h
      exfalso
      have := Int.negSucc_lt_zero m
      omega

/-! ## The scan over the entries of the root -/

theorem scanStates_not_found (load : String → Except String State) (p : Nat)
    (list : List String) (h : ∀ n ∈ list, ¬ HasPid load p n) :
    (scanStates load (Nat.repr p) list).2 = .error (.cantFindContainer (Nat.repr p)) := by
  induction list with
  | nil => rfl
  | cons item rest ih =>
    have ih' := ih (fun n hn => h n (List.mem_cons_of_mem _ hn))
    unfold scanStates
    cases hl : load item with
    | error e => simpa using ih'
    | ok st =>
      have hne : ¬ sprintfD st.Pid = Nat.repr p := by
        intro heq
        exact h item (List.mem_cons_self _ _) ⟨st, hl, (sprintfD_eq_repr_iff _ _).mp heq⟩
      simpa [hne] using ih'

theorem scanStates_found (load : String → Except String State) (p : Nat)
    (list : List String) (name : String) (hmem : name ∈ list) (hpid : HasPid load p name)
    (huniq : ∀ n ∈ list, HasPid load p n → n = name) :
    (scanStates load (Nat.repr p) list).2 = .ok name := by
  induction list with
  | nil => simp at hmem
  | cons item rest ih =>
    unfold scanStates
    by_cases hitem : HasPid load p item
    · obtain ⟨st, hl, hst⟩ := hitem
      have hn : item = name := huniq item (List.mem_cons_self _ _) ⟨st, hl, hst⟩
      have heq : sprintfD st.Pid = Nat.repr p := (sprintfD_eq_repr_iff _ _).mpr hst
      subst hn
      simp [hl, heq]
    · have hrest : name ∈ rest := by
        rcases List.mem_cons.mp hmem with rfl | h
        · exact absurd hpid hitem
        · exact h
      have ih' := ih hrest (fun n hn => huniq n (List.mem_cons_of_mem _ hn))
      cases hl : load item with
      | error e => simpa using ih'
      | ok st =>
        have hne : ¬ sprintfD st.Pid = Nat.repr p := by
          intro heq
          exact hitem ⟨st, hl, (sprintfD_eq_repr_iff _ _).mp heq⟩
        simpa [hne] using ih'

theorem procPath_data (p : Nat) (s : String) :
    procPath p s = String.mk (procLit ++ (Nat.repr p).data ++ nsLit ++ ('/' :: s.data)) := by
  apply String.ext
  simp [procPath, String.data_append, procLit, nsLit]

/-! ## `findSharedContainer` -/

/-- On `/proc/<p>/ns/<s>` and a listable root, the result is the result of the scan for the
decimal text of `p`. -/
theorem findSharedContainer_procPath (root : Root) (dir : String) (list : List String)
    (habs : root.abs = .ok dir) (hlist : root.readDir = .ok list) (p : Nat) (s : String) :
    (findSharedContainer root (procPath p s)).2 =
      (scanStates root.loadStateFile (Nat.repr p) list).2 := by
  obtain ⟨w, hw⟩ := FindStringSubmatch_proc (Nat.repr p).data ('/' :: s.data)
    (repr_ne_nil p) (repr_isDigit p)
  rw [← procPath_data p s] at hw
  have hslash : '/' ∈ (procPath p s).data := by
    rw [procPath_data]; simp [procLit]
  unfold findSharedContainer
  simp only [habs, hlist, hslash, if_true, hw]

/-- C5: on the path `/proc/<p>/ns/<s>` and a listable root, when exactly one entry has a
loadable state record with `Pid = p` the result is that entry's name, for every ordering of
the listing; when no entry has one, the result is the can't-find-container error. -/
theorem findSharedContainer_pid (dir : String) (load : String → Except String State)
    (p : Nat) (s : String) (list : List String) :
    (∀ name, name ∈ list → HasPid load p name →
      (∀ n ∈ list, HasPid load p n → n = name) →
      ∀ list', list'.Perm list →
        (findSharedContainer { abs := .ok dir, readDir := .ok list', loadStateFile := load }
          (procPath p s)).2 = .ok name) ∧
    ((∀ n ∈ list, ¬ HasPid load p n) →
      (findSharedContainer { abs := .ok dir, readDir := .ok list, loadStateFile := load }
        (procPath p s)).2 = .error (.cantFindContainer (Nat.repr p))) := by
  constructor
  · intro name hmem hpid huniq list' hperm
    rw [findSharedContainer_procPath _ dir list' rfl rfl]
    exact scanStates_found load p list' name (hperm.mem_iff.mpr hmem) hpid
      (fun n hn => huniq n (hperm.mem_iff.mp hn))
  · intro hnone
    rw [findSharedContainer_procPath _ dir list rfl rfl]
    exact scanStates_not_found load p list hnone

/-- Witness of `findSharedContainer_pid`: `/proc/4821/ns/pid` resolves to `b`, the one entry
with pid 4821, also when the listing is reversed; `/proc/99/ns/pid` is not found. -/
theorem findSharedContainer_pid_witness :
    procPath 4821 "pid" = "/proc/4821/ns/pid" ∧
    (findSharedContainer
      { abs := .ok "/run/runv", readDir := .ok ["c", "b", "a"],
        loadStateFile := rootABC.loadStateFile } "/proc/4821/ns/pid").2 = .ok "b" ∧
    (findSharedContainer
      { abs := .ok "/run/runv", readDir := .ok ["a", "b", "c"],
        loadStateFile := rootABC.loadStateFile } (procPath 99 "pid")).2
      = .error (.cantFindContainer "99") := by
  refine ⟨by decide, ?_, ?_⟩
  · refine (findSharedContainer_pid "/run/runv" rootABC.loadStateFile 4821 "pid"
      ["a", "b", "c"]).1 "b" (by decide) ⟨{ Pid := 4821 }, rfl, rfl⟩ ?_ ["c", "b", "a"]
      (by decide)
    intro n hn ⟨st, hst, hpid⟩
    simp only [List.mem_cons, List.mem_singleton, List.not_mem_nil, or_false] at hn
    rcases hn with rfl | rfl | rfl
    · exact absurd hst (by simp [rootABC])
    · rfl
    · have h7 : rootABC.loadStateFile "c" = .ok { Pid := 7 } := rfl
      rw [h7] at hst
      cases hst
      exact absurd hpid (by decide)
  · refine (findSharedContainer_pid "/run/runv" rootABC.loadStateFile 99 "pid"
      ["a", "b", "c"]).2 ?_
    intro n hn ⟨st, hst, hpid⟩
    simp only [List.mem_cons, List.mem_singleton, List.not_mem_nil, or_false] at hn
    rcases hn with rfl | rfl | rfl
    · exact absurd hst (by simp [rootABC])
    · have h : rootABC.loadStateFile "b" = .ok { Pid := 4821 } := rfl
      rw [h] at hst
      cases hst
      exact absurd hpid (by decide)
    · have h7 : rootABC.loadStateFile "c" = .ok { Pid := 7 } := rfl
      rw [h7] at hst
      cases hst
      exact absurd hpid (by decide)

/-- C6: on a listable root, a path that contains `/` and no occurrence of the shape
`/proc/<digits>/ns` gets the malformed-ns-path error, and the only external operation
performed is the listing: no state record is consulted. -/
theorem findSharedContainer_malformed (root : Root) (dir : String) (list : List String)
    (nsPath : String) (habs : root.abs = .ok dir) (hlist : root.readDir = .ok list)
    (hslash : '/' ∈ nsPath.data) (hshape : ¬ HasProcShape nsPath) :
    findSharedContainer root nsPath = ([Event.readDir], .error (.malformedNsPath nsPath)) ∧
    ∀ name, Event.loadStateFile name ∉ (findSharedContainer root nsPath).1 := by
  have hnil : FindStringSubmatch nsPath = [] := (FindStringSubmatch_eq_nil_iff nsPath).mpr hshape
  have h : findSharedContainer root nsPath
      = ([Event.readDir], .error (.malformedNsPath nsPath)) := by
    unfold findSharedContainer
    simp only [habs, hlist, hslash, if_true, hnil]
  refine ⟨h, ?_⟩
  intro name
  rw [h]
  simp

/-- Witness of `findSharedContainer_malformed`: the path `/var/run/netns/foo` on a root that
holds a record of pid 4821. -/
theorem findSharedContainer_malformed_witness :
    findSharedContainer rootABC "/var/run/netns/foo"
      = ([Event.readDir], .error (.malformedNsPath "/var/run/netns/foo")) :=
  (findSharedContainer_malformed rootABC "/run/runv" ["a", "b", "c"] "/var/run/netns/foo"
    rfl rfl (by decide) ((FindStringSubmatch_eq_nil_iff _).mp (by decide))).1

/-- C7 fails on a root that cannot be listed: the bare name `sandbox0` is not returned, the
error of `ioutil.ReadDir` is. -/
theorem bare_name_on_unlistable_root :
    '/' ∉ "sandbox0".data ∧
    (findSharedContainer rootMissing "sandbox0").2
      = .error (.external "open /run/runv: no such file or directory") :=
  ⟨by decide, rfl⟩

/-- C7 as amended: on a root whose listing succeeds, a path without `/` is returned
unchanged with no error, and no state record is consulted. -/
theorem findSharedContainer_bare_name (root : Root) (dir : String) (list : List String)
    (nsPath : String) (habs : root.abs = .ok dir) (hlist : root.readDir = .ok list)
    (hslash : '/' ∉ nsPath.data) :
    findSharedContainer root nsPath = ([Event.readDir], .ok nsPath) := by
  unfold findSharedContainer
  simp only [habs, hlist, hslash, if_false]

/-- Witness of `findSharedContainer_bare_name`: the bare name `sandbox0`. -/
theorem findSharedContainer_bare_name_witness :
    findSharedContainer rootABC "sandbox0" = ([Event.readDir], .ok "sandbox0") :=
  findSharedContainer_bare_name rootABC "/run/runv" ["a", "b", "c"] "sandbox0" rfl rfl
    (by decide)

/-! ## `cmdCreateContainer` -/

/-- C8, the code where `setupFactory` fails and where `createAndLockSandBox` fails, with no
sandbox shared: `cmdCreateContainer` returns nil although `createContainer` was never
invoked. -/
theorem cmdCreateContainer_swallows_failure :
    cmdCreateContainer envFactoryFails false = ([Event.setupFactory], Ret.nil) ∧
    cmdCreateContainer envSandboxFails false
      = ([Event.setupFactory, Event.createAndLockSandBox 4 128], Ret.nil) := by
  constructor <;> decide

/-- C4 fails when the spec carries an `ocid/container_type` annotation: the namespaces are
not inspected, and the call with a mount namespace path creates a sandbox and returns nil. -/
theorem cmdCreateContainer_mount_annotated :
    ReachesSelection (envOk (specWith [nsMount] [("ocid/container_type", "sandbox")]) rootABC)
      false (specWith [nsMount] [("ocid/container_type", "sandbox")]) (linuxWith [nsMount]) ∧
    nsMount.Typ = "mount" ∧ nsMount.Path ≠ "" ∧
    cmdCreateContainer (envOk (specWith [nsMount] [("ocid/container_type", "sandbox")]) rootABC)
      false = ([Event.setupFactory, Event.createAndLockSandBox 4 128, Event.createContainer,
        Event.putSandbox], Ret.nil) := by
  refine ⟨⟨rfl, rfl, rfl, by decide, rfl, by decide⟩, rfl, by decide, by decide⟩

/-- Also without annotation the mount error can be preceded: a path-bearing namespace listed
before the mount namespace that the locator cannot resolve makes the call return the
locator's error. -/
theorem cmdCreateContainer_mount_after_unresolved :
    (cmdCreateContainer (envOk (specWith [nsPid99, nsMount] []) rootABC) false).2
      = Ret.err (Error.failedToFindShared (Error.cantFindContainer "99")) := by
  decide

/-- C10 fails: the pid namespace resolves to `b` and the network namespace to `c`, and the
call joins the sandbox of `c` and returns nil. -/
theorem cmdCreateContainer_two_owners :
    ReachesSelection (envOk (specWith [nsPid4821, nsNet7] []) rootABC) false
      (specWith [nsPid4821, nsNet7] []) (linuxWith [nsPid4821, nsNet7]) ∧
    (findSharedContainer rootABC nsPid4821.Path).2 = .ok "b" ∧
    (findSharedContainer rootABC nsNet7.Path).2 = .ok "c" ∧
    cmdCreateContainer (envOk (specWith [nsPid4821, nsNet7] []) rootABC) false
      = ([Event.readDir, Event.loadStateFile "a", Event.loadStateFile "b",
          Event.readDir, Event.loadStateFile "a", Event.loadStateFile "b",
          Event.loadStateFile "c",
          Event.loadStateFile "c", Event.getSandbox "c", Event.createContainer,
          Event.putSandbox], Ret.nil) := by
  refine ⟨⟨rfl, rfl, rfl, by decide, rfl, by decide⟩, rfl, rfl, by decide⟩

/-- Apart from the two swallowed failures, nil means the container was created: when
`createWith` returns nil, either `createContainer` was invoked and returned no error, or no
sandbox is shared and `setupFactory` or `createAndLockSandBox` returned an error. -/
theorem createWith_nil (env : Env) (spec : Spec) (sharedContainer : String)
    (h : (createWith env spec sharedContainer).2 = Ret.nil) :
    (Event.createContainer ∈ (createWith env spec sharedContainer).1 ∧
      ∃ scState, env.createContainer scState = .ok ()) ∨
    (sharedContainer = "" ∧ Event.createContainer ∉ (createWith env spec sharedContainer).1 ∧
      ((∃ e, env.setupFactory = .error e) ∨
        ∃ cpu mem e, env.createAndLockSandBox cpu mem = .error e)) := by
  unfold createWith at h ⊢
  by_cases hs : sharedContainer = ""
  · simp only [hs, ne_eq, not_true_eq_false, if_false] at h ⊢
    cases hf : env.setupFactory with
    | error e => right; simp
    | ok u =>
      simp only [hf] at h
      cases hc : env.createAndLockSandBox
          (getContainerCPUMemory env.default_cpus env.default_memory spec).1
          (getContainerCPUMemory env.default_cpus env.default_memory spec).2 with
      | error e =>
        right
        refine ⟨trivial, by simp, Or.inr ⟨_, _, e, hc⟩⟩
      | ok u' =>
        simp only [hc] at h
        left
        unfold createInSandbox at h ⊢
        cases hcc : env.createContainer none with
        | error e => simp [hcc] at h
        | ok u'' => exact ⟨by simp [hcc], none, by cases u''; exact hcc⟩
  · simp only [ne_eq, hs, not_false_eq_true, if_true] at h ⊢
    cases hl : env.root.loadStateFile sharedContainer with
    | error e => simp [hl] at h
    | ok st =>
      simp only [hl] at h
      cases hg : env.getSandbox sharedContainer with
      | error e => simp [hg] at h
      | ok u =>
        simp only [hg] at h
        left
        unfold createInSandbox at h ⊢
        cases hcc : env.createContainer (some st) with
        | error e => simp [hcc] at h
        | ok u'' => exact ⟨by simp [hcc], some st, by cases u''; exact hcc⟩

/-! ## Sandbox selection -/

theorem scanStates_events (load : String → Except String State) (pid : String)
    (list : List String) : ∀ e ∈ (scanStates load pid list).1, e.isSandboxOp = false := by
  induction list with
  | nil => simp [scanStates]
  | cons item rest ih =>
    unfold scanStates
    cases hl : load item with
    | error e =>
      intro e he
      simp only [List.mem_cons] at he
      rcases he with rfl | he
      · rfl
      · exact ih e he
    | ok st =>
      by_cases hp : sprintfD st.Pid = pid
      · simp [hp, Event.isSandboxOp]
      · simp only [hp, if_false]
        intro e he
        simp only [List.mem_cons] at he
        rcases he with rfl | he
        · rfl
        · exact ih e he

/-- The locator only lists the root and loads state files. -/
theorem findSharedContainer_events (root : Root) (nsPath : String) :
    ∀ e ∈ (findSharedContainer root nsPath).1, e.isSandboxOp = false := by
  unfold findSharedContainer
  cases root.abs with
  | error e => simp
  | ok dir =>
    cases root.readDir with
    | error e => simp [Event.isSandboxOp]
    | ok list =>
      by_cases hs : '/' ∈ nsPath.data
      · simp only [hs, if_true]
        split
        · intro e he
          simp only [List.mem_cons] at he
          rcases he with rfl | he
          · rfl
          · exact scanStates_events _ _ _ e he
        · simp [Event.isSandboxOp]
      · simp [hs, Event.isSandboxOp]

/-- The namespace loop stops with the shared-mount error at a mount namespace with a path,
when every path-bearing namespace before it is a mount namespace or is resolved. -/
theorem nsLoop_mount (root : Root) (before after : List LinuxNamespace) (m : LinuxNamespace)
    (hm : m.Typ = "mount") (hpath : m.Path ≠ "")
    (hbefore : ∀ ns ∈ before, ns.Path ≠ "" → ns.Typ ≠ "mount" →
      ∃ c, (findSharedContainer root ns.Path).2 = .ok c) (shared : String) :
    (nsLoop root (before ++ m :: after) shared).2 = .error .sharedMountNamespace ∧
    ∀ e ∈ (nsLoop root (before ++ m :: after) shared).1, e.isSandboxOp = false := by
  induction before generalizing shared with
  | nil => simp [nsLoop, hm, hpath]
  | cons ns rest ih =>
    have ih' := ih (fun n hn => hbefore n (List.mem_cons_of_mem _ hn))
    simp only [List.cons_append]
    unfold nsLoop
    by_cases hp : ns.Path = ""
    · simpa [hp] using ih' shared
    · by_cases ht : ns.Typ = "mount"
      · simp [hp, ht]
      · obtain ⟨c, hc⟩ := hbefore ns (List.mem_cons_self _ _) hp ht
        simp only [ne_eq, hp, not_false_eq_true, if_true, ht, if_false, hc]
        refine ⟨(ih' c).1, ?_⟩
        intro e he
        rcases List.mem_append.mp he with he | he
        · exact findSharedContainer_events _ _ e he
        · exact (ih' c).2 e he

/-- The namespace loop over namespaces without path leaves `sharedContainer` as it is. -/
theorem nsLoop_no_path (root : Root) (nss : List LinuxNamespace)
    (h : ∀ ns ∈ nss, ns.Path = "") (shared : String) :
    nsLoop root nss shared = ([], .ok shared) := by
  induction nss with
  | nil => rfl
  | cons ns rest ih =>
    unfold nsLoop
    simp [h ns (List.mem_cons_self _ _), ih (fun n hn => h n (List.mem_cons_of_mem _ hn))]

/-- The namespace loop ends with the container resolved for the last path-bearing
namespace, whatever the earlier ones resolved to. -/
theorem nsLoop_last (root : Root) (before after : List LinuxNamespace) (last : LinuxNamespace)
    (c : String)
    (hmount : ∀ ns ∈ before ++ last :: after, ns.Path ≠ "" → ns.Typ ≠ "mount")
    (hbefore : ∀ ns ∈ before, ns.Path ≠ "" →
      ∃ c', (findSharedContainer root ns.Path).2 = .ok c')
    (hpath : last.Path ≠ "") (hafter : ∀ ns ∈ after, ns.Path = "")
    (hlast : (findSharedContainer root last.Path).2 = .ok c) (shared : String) :
    (nsLoop root (before ++ last :: after) shared).2 = .ok c ∧
    ∀ e ∈ (nsLoop root (before ++ last :: after) shared).1, e.isSandboxOp = false := by
  induction before generalizing shared with
  | nil =>
    have ht : ¬ last.Typ = "mount" := hmount last (by simp) hpath
    simp only [List.nil_append]
    unfold nsLoop
    simp only [ne_eq, hpath, not_false_eq_true, if_true, ht, if_false, hlast,
      nsLoop_no_path root after hafter c, List.append_nil, true_and]
    exact findSharedContainer_events _ _
  | cons ns rest ih =>
    have ih' := ih (fun n hn => hmount n (by simp at hn ⊢; tauto))
      (fun n hn => hbefore n (List.mem_cons_of_mem _ hn))
    simp only [List.cons_append]
    unfold nsLoop
    by_cases hp : ns.Path = ""
    · simpa [hp] using ih' shared
    · have ht : ¬ ns.Typ = "mount" := hmount ns (by simp) hp
      obtain ⟨c', hc'⟩ := hbefore ns (List.mem_cons_self _ _) hp
      simp only [ne_eq, hp, not_false_eq_true, if_true, ht, if_false, hc']
      refine ⟨(ih' c').1, ?_⟩
      intro e he
      rcases List.mem_append.mp he with he | he
      · exact findSharedContainer_events _ _ e he
      · exact (ih' c').2 e he

/-- A call that reaches the sandbox selection returns the selection's error, or goes on to
acquire a sandbox for the selected container. -/
theorem cmdCreateContainer_of_reaches (env : Env) (attach : Bool) (spec : Spec) (linux : Linux)
    (h : ReachesSelection env attach spec linux) :
    cmdCreateContainer env attach =
      match (selectShared env.root spec linux).2 with
      | .error e => ((selectShared env.root spec linux).1, .err e)
      | .ok sharedContainer =>
        ((selectShared env.root spec linux).1 ++ (createWith env spec sharedContainer).1,
          (createWith env spec sharedContainer).2) := by
  obtain ⟨h1, h2, h3, h4, h5, h6⟩ := h
  unfold cmdCreateContainer
  simp only [h1, h2, h3, h4, h5, h6, ne_eq, not_true_eq_false, if_false, Bool.false_eq_true]

/-- The namespace loop over a list that holds a mount namespace with a path always ends with
an error and performs no sandbox operation: the error is the shared-mount error, or the
wrapped error of the locator for a path-bearing namespace listed before the mount one. -/
theorem nsLoop_mount_fails (root : Root) (before after : List LinuxNamespace)
    (m : LinuxNamespace) (hm : m.Typ = "mount") (hpath : m.Path ≠ "") (shared : String) :
    ((nsLoop root (before ++ m :: after) shared).2 = .error .sharedMountNamespace ∨
      ∃ ns ∈ before, ∃ cause, ns.Path ≠ "" ∧ ns.Typ ≠ "mount" ∧
        (findSharedContainer root ns.Path).2 = .error cause ∧
        (nsLoop root (before ++ m :: after) shared).2
          = .error (.failedToFindShared cause)) ∧
    ∀ e ∈ (nsLoop root (before ++ m :: after) shared).1, e.isSandboxOp = false := by
  induction before generalizing shared with
  | nil => simp [nsLoop, hm, hpath]
  | cons ns rest ih =>
    simp only [List.cons_append]
    unfold nsLoop
    by_cases hp : ns.Path = ""
    · simp only [ne_eq, hp, not_true_eq_false, if_false]
      refine ⟨?_, (ih shared).2⟩
      rcases (ih shared).1 with h | ⟨n, hn, cause, h1, h2, h3, h4⟩
      · exact Or.inl h
      · exact Or.inr ⟨n, List.mem_cons_of_mem _ hn, cause, h1, h2, h3, h4⟩
    · by_cases ht : ns.Typ = "mount"
      · simp [hp, ht]
      · cases hc : (findSharedContainer root ns.Path).2 with
        | error cause =>
          simp only [ne_eq, hp, not_false_eq_true, if_true, ht, if_false]
          refine ⟨Or.inr ⟨ns, List.mem_cons_self _ _, cause, hp, ht, hc, rfl⟩, ?_⟩
          exact findSharedContainer_events root ns.Path
        | ok c =>
          simp only [ne_eq, hp, not_false_eq_true, if_true, ht, if_false]
          refine ⟨?_, ?_⟩
          · rcases (ih c).1 with h | ⟨n, hn, cause, h1, h2, h3, h4⟩
            · exact Or.inl h
            · exact Or.inr ⟨n, List.mem_cons_of_mem _ hn, cause, h1, h2, h3, h4⟩
          · intro e he
            rcases List.mem_append.mp he with he | he
            · exact findSharedContainer_events _ _ e he
            · exact (ih c).2 e he

/-- C4 as amended: a create call that reaches the sandbox selection with a spec that has no
`ocid/container_type` annotation and lists a mount namespace with a non-empty path always
fails and never loads or creates a sandbox nor invokes `createContainer`, whatever the other
namespace entries and their order. The error is the shared-mount-namespace error, or else
the wrapped locator error of a path-bearing non-mount namespace listed before the mount one
that the locator does not resolve; it is the shared-mount-namespace error whenever every
path-bearing non-mount namespace listed before the mount one is resolved by the locator. -/
theorem cmdCreateContainer_shared_mount (env : Env) (attach : Bool) (spec : Spec)
    (linux : Linux) (before after : List LinuxNamespace) (m : LinuxNamespace)
    (hreach : ReachesSelection env attach spec linux)
    (hann : spec.Annotations.lookup "ocid/container_type" = none)
    (hns : linux.Namespaces = before ++ m :: after)
    (hm : m.Typ = "mount") (hpath : m.Path ≠ "") :
    (∀ e ∈ (cmdCreateContainer env attach).1, e.isSandboxOp = false) ∧
    ((cmdCreateContainer env attach).2 = Ret.err Error.sharedMountNamespace ∨
      ∃ ns ∈ before, ∃ cause, ns.Path ≠ "" ∧ ns.Typ ≠ "mount" ∧
        (findSharedContainer env.root ns.Path).2 = .error cause ∧
        (cmdCreateContainer env attach).2 = Ret.err (Error.failedToFindShared cause)) ∧
    ((∀ ns ∈ before, ns.Path ≠ "" → ns.Typ ≠ "mount" →
        ∃ c, (findSharedContainer env.root ns.Path).2 = .ok c) →
      (cmdCreateContainer env attach).2 = Ret.err Error.sharedMountNamespace) := by
  have hsel : selectShared env.root spec linux = nsLoop env.root (before ++ m :: after) "" := by
    simp [selectShared, hann, hns]
  have hcmd := cmdCreateContainer_of_reaches env attach spec linux hreach
  rw [hsel] at hcmd
  have hfail := nsLoop_mount_fails env.root before after m hm hpath ""
  refine ⟨?_, ?_, ?_⟩
  · rcases hfail.1 with h | ⟨n, _, cause, _, _, _, h⟩ <;>
      · rw [hcmd]
        simp only [h]
        exact hfail.2
  · rcases hfail.1 with h | ⟨n, hn, cause, h1, h2, h3, h⟩
    · left
      rw [hcmd]
      simp only [h]
    · right
      refine ⟨n, hn, cause, h1, h2, h3, ?_⟩
      rw [hcmd]
      simp only [h]
  · intro hbefore
    have hloop := nsLoop_mount env.root before after m hm hpath hbefore ""
    rw [hcmd]
    simp only [hloop.1]

/-- Witness of `cmdCreateContainer_shared_mount`: a pid namespace that resolves to `b`,
then a mount namespace with a path, then a namespace the locator could not resolve. -/
theorem cmdCreateContainer_shared_mount_witness :
    (∀ e ∈ (cmdCreateContainer
        (envOk (specWith [nsPid4821, nsMount, nsPid99] []) rootABC) false).1,
      e.isSandboxOp = false) ∧
    (cmdCreateContainer (envOk (specWith [nsPid4821, nsMount, nsPid99] []) rootABC) false).2
      = Ret.err Error.sharedMountNamespace :=
  have h := cmdCreateContainer_shared_mount
    (envOk (specWith [nsPid4821, nsMount, nsPid99] []) rootABC) false
    (specWith [nsPid4821, nsMount, nsPid99] []) (linuxWith [nsPid4821, nsMount, nsPid99])
    [nsPid4821] [nsPid99] nsMount
    ⟨rfl, rfl, rfl, by decide, rfl, by decide⟩ rfl rfl rfl (by decide)
  ⟨h.1, h.2.2 (by
      intro ns hns _ _
      simp only [List.mem_singleton] at hns
      subst hns
      exact ⟨"b", rfl⟩)⟩

/-- C10 as amended: a create call that reaches the sandbox selection with a spec that has no
`ocid/container_type` annotation and no path-bearing mount namespace, all of whose
path-bearing namespaces are resolved by the locator, does not fail when they resolve to
different containers: it joins the container resolved for the last path-bearing namespace
listed, and no other, and returns nil when that container's state and sandbox load and
`createContainer` succeeds. -/
theorem cmdCreateContainer_joins_last (env : Env) (attach : Bool) (spec : Spec)
    (linux : Linux) (before after : List LinuxNamespace) (last : LinuxNamespace)
    (c : String) (st : State)
    (hreach : ReachesSelection env attach spec linux)
    (hann : spec.Annotations.lookup "ocid/container_type" = none)
    (hns : linux.Namespaces = before ++ last :: after)
    (hmount : ∀ ns ∈ linux.Namespaces, ns.Path ≠ "" → ns.Typ ≠ "mount")
    (hbefore : ∀ ns ∈ before, ns.Path ≠ "" →
      ∃ c', (findSharedContainer env.root ns.Path).2 = .ok c')
    (hpath : last.Path ≠ "") (hafter : ∀ ns ∈ after, ns.Path = "")
    (hlast : (findSharedContainer env.root last.Path).2 = .ok c) (hc : c ≠ "")
    (hstate : env.root.loadStateFile c = .ok st) (hsandbox : env.getSandbox c = .ok ())
    (hcreate : env.createContainer (some st) = .ok ()) :
    (cmdCreateContainer env attach).2 = Ret.nil ∧
    Event.getSandbox c ∈ (cmdCreateContainer env attach).1 ∧
    ∀ c', Event.getSandbox c' ∈ (cmdCreateContainer env attach).1 → c' = c := by
  have hsel : selectShared env.root spec linux
      = nsLoop env.root (before ++ last :: after) "" := by
    simp [selectShared, hann, hns]
  have hloop := nsLoop_last env.root before after last c (hns ▸ hmount) hbefore hpath hafter
    hlast ""
  have hwith : createWith env spec c
      = ([Event.loadStateFile c, Event.getSandbox c, Event.createContainer, Event.putSandbox],
          Ret.nil) := by
    simp [createWith, hc, hstate, hsandbox, createInSandbox, hcreate]
  rw [cmdCreateContainer_of_reaches env attach spec linux hreach, hsel]
  simp only [hloop.1, hwith]
  refine ⟨trivial, by simp, ?_⟩
  intro c' hc'
  rcases List.mem_append.mp hc' with h | h
  · have := hloop.2 _ h
    simp [Event.isSandboxOp] at this
  · simpa using h

/-- Witness of `cmdCreateContainer_joins_last`: the pid namespace resolves to `b`, the
network namespace, listed last, to `c`; the call joins `c`. -/
theorem cmdCreateContainer_joins_last_witness :
    (findSharedContainer rootABC nsPid4821.Path).2 = .ok "b" ∧
    (findSharedContainer rootABC nsNet7.Path).2 = .ok "c" ∧
    (cmdCreateContainer (envOk (specWith [nsPid4821, nsNet7] []) rootABC) false).2 = Ret.nil ∧
    Event.getSandbox "c" ∈
      (cmdCreateContainer (envOk (specWith [nsPid4821, nsNet7] []) rootABC) false).1 :=
  have h := cmdCreateContainer_joins_last
    (envOk (specWith [nsPid4821, nsNet7] []) rootABC) false
    (specWith [nsPid4821, nsNet7] []) (linuxWith [nsPid4821, nsNet7])
    [nsPid4821] [] nsNet7 "c" { Pid := 7 }
    ⟨rfl, rfl, rfl, by decide, rfl, by decide⟩ rfl rfl
    (by
      intro ns hns _
      simp only [linuxWith, List.mem_cons, List.mem_singleton, List.not_mem_nil, or_false] at hns
      rcases hns with rfl | rfl <;> decide)
    (by
      intro ns hns _
      simp only [List.mem_singleton] at hns
      subst hns
      exact ⟨"b", rfl⟩)
    (by decide) (by simp) rfl (by decide) rfl rfl rfl
  ⟨rfl, rfl, h.1, h.2.1⟩

end Runv
